import Mathlib

/-!
Verification of the FinFlow personal-finance ledger core against its
specification.  The Python sources under `app/` are shallowly embedded:

* monetary amounts (Python `Decimal` with two fraction digits) are exact,
  so they are modelled as integers (cents); only addition, subtraction,
  negation and absolute value occur, all exact on `Int`;
* the SQLAlchemy session is modelled as an explicit `DB` state threaded
  through each service function; a raised exception before `commit`
  leaves the persisted state unchanged, so failing paths return the
  state as it was at the raise point;
* pydantic schema validation is modelled as `Except`-returning functions
  applied before the service layer, mirroring field-declaration order;
* the external AI provider call is modelled as an oracle argument
  (`AIResult`): either a returned message string or a raised error.
-/

namespace FinFlow

/-! ## String helpers mirroring Python `str.strip`, `str.lower`, `in` -/

/-- Python `str.lower` (ASCII case mapping suffices for the embedded data). -/
def pyLower (s : String) : String := ⟨s.data.map Char.toLower⟩

/-- Python `str.strip`: drop whitespace from both ends. -/
def pyStrip (s : String) : String :=
  ⟨((s.data.dropWhile Char.isWhitespace).reverse.dropWhile Char.isWhitespace).reverse⟩

/-- Does `needle` occur at the head of `hay`? -/
def matchesAt : List Char → List Char → Bool
  | [], _ => true
  | _ :: _, [] => false
  | n :: ns, h :: hs => n == h && matchesAt ns hs

/-- Does `needle` occur anywhere in `hay`? -/
def containsChars (needle : List Char) : List Char → Bool
  | [] => matchesAt needle []
  | h :: hs => matchesAt needle (h :: hs) || containsChars needle hs

/-- Python `needle in hay` on strings: substring containment. -/
def strContains (hay needle : String) : Bool :=
  containsChars needle.data hay.data

/-! ## Categorization service (`app/services/ai/categorization_service.py`) -/

def STANDARD_CATEGORIES : List String :=
  ["food_dining", "groceries", "transportation", "utilities", "housing",
   "healthcare", "entertainment", "shopping", "education", "travel",
   "income", "transfer", "other"]

def food_keywords : List String :=
  ["restaurant", "mcdonald", "burger", "pizza", "cafe", "coffee", "dining"]

def grocery_keywords : List String :=
  ["grocery", "supermarket", "walmart", "target", "costco", "market"]

def gas_keywords : List String :=
  ["gas", "shell", "exxon", "bp", "chevron", "fuel"]

/-- `CategorizationService._fallback_categorization`: keyword matching on the
lower-cased description; each `for` loop returns on the first matching keyword,
so a loop is equivalent to `List.any`. -/
def fallback_categorization (description : String) (amount : Int) : String :=
  let description_lower := pyLower description
  if amount > 0 then "income"
  else if food_keywords.any (fun k => strContains description_lower k) then "food_dining"
  else if grocery_keywords.any (fun k => strContains description_lower k) then "groceries"
  else if gas_keywords.any (fun k => strContains description_lower k) then "transportation"
  else "other"

/-- Outcome of the external AI call (`client.chat.completions.create`):
either the message content, or any raised transport/provider error. -/
inductive AIResult where
  | ok (content : String)
  | fail
deriving DecidableEq

/-- `CategorizationService.categorize_transaction`. `enabled` is
`self.enabled` (set iff an API key is configured); the AI call itself is the
`ai` oracle.  When disabled the code returns `"other"` at once; when the call
raises, the `except` branch runs the fallback; otherwise the stripped,
lower-cased content is accepted only if it is in `STANDARD_CATEGORIES`. -/
def categorize_transaction (enabled : Bool) (ai : AIResult)
    (description : String) (amount : Int) : String :=
  if !enabled then "other"
  else
    match ai with
    | .ok content =>
        let category := pyLower (pyStrip content)
        if category ∈ STANDARD_CATEGORIES then category else "other"
    | .fail => fallback_categorization description amount

/-! ## Data model (`app/models/account.py`, `app/models/transaction.py`)

Monetary amounts are integers (cents); datetimes are integers with the
database ordering. -/

structure Account where
  id : Nat
  user_id : Nat
  name : String
  account_type : String
  balance : Int
  is_active : Bool
deriving DecidableEq, Repr

structure Transaction where
  id : Nat
  user_id : Nat
  account_id : Nat
  amount : Int
  description : String
  category : Option String
  transaction_type : String
  notes : Option String
  reference : Option String
  transfer_account_id : Option Nat
  transaction_date : Int
deriving DecidableEq, Repr

/-- The persisted state: the two tables plus the autoincrement counter for
transaction ids (rows are assigned ids in `db.add` order). -/
structure DB where
  accounts : List Account
  transactions : List Transaction
  nextTransactionId : Nat
deriving DecidableEq, Repr

/-! ## Schemas (`app/schemas/transaction.py`, `app/schemas/account.py`) -/

/-- `TransactionCreate` as received by the route, before validators run. -/
structure TransactionCreate where
  transaction_type : String
  amount : Int
  description : String
  category : Option String := none
  notes : Option String := none
  reference : Option String := none
  transaction_date : Int
  account_id : Nat
  transfer_account_id : Option Nat := none
deriving DecidableEq, Repr

def allowed_types : List String := ["income", "expense", "transfer"]

/-- `TransactionCreate.validate_transaction_type`. -/
def validate_transaction_type (v : String) : Except String String :=
  if v ∈ allowed_types then .ok v
  else .error "Transaction type must be one of: income, expense, transfer"

/-- `TransactionCreate.validate_amount`: reject zero, then normalize the sign
by declared kind (the two `if`s run in sequence; at most one fires). -/
def validate_amount (transaction_type : String) (v : Int) : Except String Int :=
  if v = 0 then .error "Amount cannot be zero"
  else
    let v := if transaction_type = "expense" ∧ v > 0 then -(abs v) else v
    let v := if transaction_type = "income" ∧ v < 0 then abs v else v
    .ok v

/-- `TransactionCreate.validate_transfer_account`. -/
def validate_transfer_account (transaction_type : String) (account_id : Nat)
    (v : Option Nat) : Except String (Option Nat) :=
  if transaction_type = "transfer" then
    match v with
    | none => .error "Transfer transactions must specify transfer_account_id"
    | some x =>
        if x = account_id then .error "Cannot transfer to the same account" else .ok v
  else if (transaction_type = "income" ∨ transaction_type = "expense") ∧ v ≠ none then
    .error "Income and expense transactions cannot have transfer_account_id"
  else .ok v

/-- Pydantic validation of `TransactionCreate`: field validators run in
declaration order, each later one seeing the earlier validated values. -/
def validateTransactionCreate (r : TransactionCreate) : Except String TransactionCreate :=
  match validate_transaction_type r.transaction_type with
  | .error e => .error e
  | .ok tt =>
    match validate_amount tt r.amount with
    | .error e => .error e
    | .ok amt =>
      match validate_transfer_account tt r.account_id r.transfer_account_id with
      | .error e => .error e
      | .ok tacc => .ok { r with transaction_type := tt, amount := amt, transfer_account_id := tacc }

/-- `TransactionUpdate`; `none` fields are unset (pydantic `exclude_unset`). -/
structure TransactionUpdate where
  amount : Option Int := none
  description : Option String := none
  category : Option String := none
  notes : Option String := none
  reference : Option String := none
  transaction_date : Option Int := none
deriving DecidableEq, Repr

/-- `TransactionUpdate.validate_amount`: zero rejected when provided; no sign
normalization is performed here. -/
def validateTransactionUpdate (u : TransactionUpdate) : Except String TransactionUpdate :=
  if u.amount = some 0 then .error "Amount cannot be zero" else .ok u

/-- `AccountUpdate`; `none` fields are unset. -/
structure AccountUpdate where
  name : Option String := none
  account_type : Option String := none
  balance : Option Int := none
  is_active : Option Bool := none
deriving DecidableEq, Repr

def allowed_account_types : List String :=
  ["checking", "savings", "credit_card", "investment", "cash"]

/-- `AccountUpdate.validate_account_type` is the only validator on
`AccountUpdate`: the balance field is not checked at all. -/
def validateAccountUpdate (u : AccountUpdate) : Except String AccountUpdate :=
  match u.account_type with
  | none => .ok u
  | some t =>
      if t ∈ allowed_account_types then .ok u
      else .error "Account type must be one of: checking, savings, credit_card, investment, cash"

/-! ## Query helpers (SQLAlchemy `db.query(...).filter(...).first()` etc.) -/

/-- `db.query(Account).filter(id == aid, user_id == uid, is_active == True).first()`. -/
def getActiveAccount (db : DB) (aid uid : Nat) : Option Account :=
  db.accounts.find? (fun a => a.id == aid && a.user_id == uid && a.is_active)

/-- Same query keyed on an optional id (`id == NULL` matches no row). -/
def getActiveAccountOpt (db : DB) (aid : Option Nat) (uid : Nat) : Option Account :=
  match aid with
  | none => none
  | some aid => getActiveAccount db aid uid

/-- `db.query(Account).filter(Account.id == aid).first()`. -/
def getAccountById (db : DB) (aid : Nat) : Option Account :=
  db.accounts.find? (fun a => a.id == aid)

/-- In-place mutation `account.balance = f(account.balance)` of the row(s)
matching an id, as seen in the committed state. -/
def updateBalance (db : DB) (aid : Nat) (f : Int → Int) : DB :=
  { db with accounts :=
      db.accounts.map (fun a => if a.id == aid then { a with balance := f a.balance } else a) }

/-- Observed balance of the account with a given id. -/
def balanceOf (db : DB) (aid : Nat) : Option Int :=
  (getAccountById db aid).map (·.balance)

/-- `transaction_service.get_transaction_by_id`. -/
def get_transaction_by_id (db : DB) (transaction_id uid : Nat) : Option Transaction :=
  db.transactions.find? (fun t => t.id == transaction_id && t.user_id == uid)

/-! ## Transaction service (`app/services/transaction_service.py`) -/

/-- Python truthiness of the category field: `not transaction_data.category`
holds for `None` and for the empty string. -/
def categoryFalsy : Option String → Bool
  | none => true
  | some s => s == ""

/-- The row constructed by `_create_single_transaction`
(`transfer_account_id` is left at its column default `NULL`). -/
def single_row (db : DB) (d : TransactionCreate) (uid : Nat) : Transaction :=
  { id := db.nextTransactionId, user_id := uid, account_id := d.account_id,
    amount := d.amount, description := d.description, category := d.category,
    transaction_type := d.transaction_type, notes := d.notes,
    reference := d.reference, transfer_account_id := none,
    transaction_date := d.transaction_date }

/-- `_create_single_transaction`: add the row, then `balance += amount`,
then commit. -/
def create_single_transaction (db : DB) (d : TransactionCreate) (uid : Nat) :
    DB × Transaction :=
  let t := single_row db d uid
  let db' := { db with transactions := db.transactions ++ [t],
                       nextTransactionId := db.nextTransactionId + 1 }
  (updateBalance db' d.account_id (· + d.amount), t)

/-- The outgoing leg built by `_create_transfer_transactions`: negative
absolute amount on the source account, pointing at the destination. -/
def outgoing_row (db : DB) (d : TransactionCreate) (uid : Nat)
    (transfer_account : Account) : Transaction :=
  { id := db.nextTransactionId, user_id := uid, account_id := d.account_id,
    amount := -(abs d.amount),
    description := "Transfer to " ++ transfer_account.name,
    category := some "transfer", transaction_type := "transfer",
    notes := d.notes, reference := d.reference,
    transfer_account_id := d.transfer_account_id,
    transaction_date := d.transaction_date }

/-- The incoming leg: positive absolute amount on the destination account,
pointing back at the source. -/
def incoming_row (db : DB) (d : TransactionCreate) (uid : Nat)
    (source_account : Account) : Transaction :=
  { id := db.nextTransactionId + 1, user_id := uid,
    account_id := d.transfer_account_id.getD 0,
    amount := abs d.amount,
    description := "Transfer from " ++ source_account.name,
    category := some "transfer", transaction_type := "transfer",
    notes := d.notes, reference := d.reference,
    transfer_account_id := some d.account_id,
    transaction_date := d.transaction_date }

/-- `_create_transfer_transactions`.  The destination account must exist,
belong to the caller and be active; the source is re-queried by id alone for
its name and balance (a missing row there would raise before commit, leaving
the state unchanged).  Row ids follow `db.add` order: outgoing first. -/
def create_transfer_transactions (db : DB) (d : TransactionCreate) (uid : Nat) :
    DB × Except String Transaction :=
  match getActiveAccountOpt db d.transfer_account_id uid with
  | none => (db, .error "Transfer account not found or access denied")
  | some transfer_account =>
    match getAccountById db d.account_id with
    | none => (db, .error "source account row missing")
    | some source_account =>
      let outgoing := outgoing_row db d uid transfer_account
      let incoming := incoming_row db d uid source_account
      let db' := updateBalance db d.account_id (· - abs d.amount)
      let db' := updateBalance db' (transfer_account.id) (· + abs d.amount)
      let db' := { db' with transactions := db'.transactions ++ [outgoing, incoming],
                            nextTransactionId := db'.nextTransactionId + 2 }
      (db', .ok outgoing)

/-- `create_transaction`.  `cat` is the categorization collaborator
(`categorization_service.categorize_transaction`). -/
def create_transaction (cat : String → Int → String) (db : DB)
    (d : TransactionCreate) (uid : Nat) : DB × Except String Transaction :=
  match getActiveAccount db d.account_id uid with
  | none => (db, .error "Account not found or access denied")
  | some _ =>
    let d :=
      if categoryFalsy d.category && d.transaction_type != "transfer" then
        { d with category := some (cat d.description d.amount) }
      else d
    if d.transaction_type == "transfer" then
      create_transfer_transactions db d uid
    else
      let (db, t) := create_single_transaction db d uid
      (db, .ok t)

/-- `setattr` application of the set fields of a `TransactionUpdate` patch. -/
def applyPatch (t : Transaction) (u : TransactionUpdate) : Transaction :=
  { t with
    amount := u.amount.getD t.amount,
    description := u.description.getD t.description,
    category := match u.category with | some c => some c | none => t.category,
    notes := match u.notes with | some n => some n | none => t.notes,
    reference := match u.reference with | some r => some r | none => t.reference,
    transaction_date := u.transaction_date.getD t.transaction_date }

/-- `update_transaction`: patch the fields; if `amount` was in the patch,
apply `new_amount - old_amount` to the account's balance; commit.  A missing
account row would raise before commit (state unchanged). -/
def update_transaction (db : DB) (transaction_id uid : Nat)
    (u : TransactionUpdate) : DB × Option Transaction :=
  match get_transaction_by_id db transaction_id uid with
  | none => (db, none)
  | some t =>
    let old_amount := t.amount
    let t' := applyPatch t u
    let db' := { db with transactions :=
        db.transactions.map (fun x => if x.id == t.id then t' else x) }
    if u.amount.isSome then
      match getAccountById db' t'.account_id with
      | none => (db, none)
      | some _ => (updateBalance db' t'.account_id (· + (t'.amount - old_amount)), some t')
    else (db', some t')

/-- `delete_transaction`: `balance -= amount`, remove the row, commit.  A
missing account row would raise before commit (state unchanged). -/
def delete_transaction (db : DB) (transaction_id uid : Nat) : DB × Bool :=
  match get_transaction_by_id db transaction_id uid with
  | none => (db, false)
  | some t =>
    match getAccountById db t.account_id with
    | none => (db, false)
    | some _ =>
      let db := updateBalance db t.account_id (· - t.amount)
      ({ db with transactions := db.transactions.eraseP (fun x => x.id == t.id) }, true)

structure TransactionSummary where
  total_income : Int
  total_expenses : Int
  net_amount : Int
  transaction_count : Nat
deriving DecidableEq, Repr

/-- The query built by `get_transaction_summary`: owner filter always; the
account filter only when the parameter is truthy (`if account_id:` is false
for `None` and for `0`); each date bound when present (a `date` object is
always truthy), inclusive on both ends. -/
def summaryQuery (db : DB) (uid : Nat) (account_id : Option Nat)
    (start_date end_date : Option Int) : List Transaction :=
  let q : List Transaction := db.transactions.filter (fun t => t.user_id == uid)
  let q : List Transaction :=
    match account_id with
    | some aid => if aid != 0 then q.filter (fun t => t.account_id == aid) else q
    | none => q
  let q : List Transaction :=
    match start_date with
    | some sd => q.filter (fun t => decide (sd ≤ t.transaction_date))
    | none => q
  match end_date with
  | some ed => q.filter (fun t => decide (t.transaction_date ≤ ed))
  | none => q

/-- `get_transaction_summary`: totals over the queried rows. -/
def get_transaction_summary (db : DB) (uid : Nat) (account_id : Option Nat)
    (start_date end_date : Option Int) : TransactionSummary :=
  let q := summaryQuery db uid account_id start_date end_date
  let total_income := ((q.filter (fun t => decide (t.amount > 0))).map (·.amount)).sum
  let total_expenses := abs ((q.filter (fun t => decide (t.amount < 0))).map (·.amount)).sum
  { total_income := total_income, total_expenses := total_expenses,
    net_amount := total_income - total_expenses, transaction_count := q.length }

/-! ## Account service (`app/services/account_service.py`) -/

/-- `account_service.get_account_by_id`: id, owner and `is_active` filters. -/
def get_account_by_id (db : DB) (account_id uid : Nat) : Option Account :=
  db.accounts.find? (fun a => a.id == account_id && a.user_id == uid && a.is_active)

/-- `setattr` application of the set fields of an `AccountUpdate` patch. -/
def applyAccountPatch (a : Account) (u : AccountUpdate) : Account :=
  { a with
    name := u.name.getD a.name,
    account_type := u.account_type.getD a.account_type,
    balance := u.balance.getD a.balance,
    is_active := u.is_active.getD a.is_active }

/-- `update_account`: look up the active owned account, apply the patch
fields, commit.  No transaction row is touched and no balance bound is
checked. -/
def update_account (db : DB) (account_id uid : Nat) (u : AccountUpdate) :
    DB × Option Account :=
  match get_account_by_id db account_id uid with
  | none => (db, none)
  | some a =>
    let a' := applyAccountPatch a u
    ({ db with accounts := db.accounts.map (fun x => if x.id == a.id then a' else x) },
     some a')

/-! ## Route-level composition: pydantic validation, then the service -/

/-- `POST /transactions`: validation errors never reach the service. -/
def create_endpoint (cat : String → Int → String) (db : DB)
    (r : TransactionCreate) (uid : Nat) : DB × Except String Transaction :=
  match validateTransactionCreate r with
  | .error e => (db, .error e)
  | .ok d => create_transaction cat db d uid

/-- `PUT /transactions/{id}`. -/
def update_endpoint (db : DB) (transaction_id uid : Nat) (u : TransactionUpdate) :
    DB × Except String (Option Transaction) :=
  match validateTransactionUpdate u with
  | .error e => (db, .error e)
  | .ok u =>
    let (db, r) := update_transaction db transaction_id uid u
    (db, .ok r)

/-- `PATCH/PUT /accounts/{id}`. -/
def update_account_endpoint (db : DB) (account_id uid : Nat) (u : AccountUpdate) :
    DB × Except String (Option Account) :=
  match validateAccountUpdate u with
  | .error e => (db, .error e)
  | .ok u =>
    let (db, r) := update_account db account_id uid u
    (db, .ok r)

/-! ## Operation sequences over the ledger -/

/-- One caller-facing ledger mutation. -/
inductive LedgerOp where
  | create (r : TransactionCreate)
  | update (transaction_id : Nat) (u : TransactionUpdate)
  | delete (transaction_id : Nat)
deriving Repr

/-- The state after one operation (failing operations leave it unchanged). -/
def applyOp (cat : String → Int → String) (uid : Nat) (db : DB) : LedgerOp → DB
  | .create r => (create_endpoint cat db r uid).1
  | .update transaction_id u => (update_endpoint db transaction_id uid u).1
  | .delete transaction_id => (delete_transaction db transaction_id uid).1

def applyOps (cat : String → Int → String) (uid : Nat) (db : DB)
    (ops : List LedgerOp) : DB :=
  ops.foldl (applyOp cat uid) db

/-! ## Specification-side definitions (from the spec's words, for comparison) -/

/-- Sum of the signed amounts of the listed transactions whose primary
account is `aid`. -/
def txnSum (l : List Transaction) (aid : Nat) : Int :=
  match l with
  | [] => 0
  | t :: ts => (if t.account_id = aid then t.amount else 0) + txnSum ts aid

/-- The balance invariant exactly as the claim states it: every account's
balance equals the sum of amounts of its currently-persisted transactions. -/
def Balanced (db : DB) : Prop :=
  ∀ a ∈ db.accounts, a.balance = txnSum db.transactions a.id

/-- The amended invariant: balances differ from the sum by the account's
balance at creation, given by `init` keyed on account id. -/
def BalancedFrom (init : Nat → Int) (db : DB) : Prop :=
  ∀ a ∈ db.accounts, a.balance = init a.id + txnSum db.transactions a.id

/-- Sign convention over a persisted state: income rows are positive,
expense rows negative. -/
def SignOK (db : DB) : Prop :=
  ∀ t ∈ db.transactions,
    (t.transaction_type = "income" → 0 < t.amount) ∧
    (t.transaction_type = "expense" → t.amount < 0)

/-- Well-formedness of the persisted state: unique account ids, unique
transaction ids, and the autoincrement counter above every existing id. -/
def WF (db : DB) : Prop :=
  (db.accounts.map (·.id)).Nodup ∧
  (db.transactions.map (·.id)).Nodup ∧
  ∀ t ∈ db.transactions, t.id < db.nextTransactionId

/-- The transaction set the summary claim describes: owner, optional primary
account, optional inclusive date bounds. -/
def summaryFilter (db : DB) (uid : Nat) (account_id : Option Nat)
    (start_date end_date : Option Int) : List Transaction :=
  db.transactions.filter (fun (t : Transaction) =>
    t.user_id == uid &&
    (match account_id with | some aid => t.account_id == aid | none => true) &&
    (match start_date with | some sd => decide (sd ≤ t.transaction_date) | none => true) &&
    (match end_date with | some ed => decide (t.transaction_date ≤ ed) | none => true))

/-! ## Helper lemmas -/

/-- `find?` on a list whose keys are distinct returns the unique member
matching a key-determined predicate. -/
theorem find_eq_some_of_key {α κ : Type} [DecidableEq κ] (key : α → κ) (p : α → Bool)
    (l : List α) (hnd : (l.map key).Nodup) (a : α) (ha : a ∈ l) (hpa : p a = true)
    (hkey : ∀ x, p x = true → key x = key a) : l.find? p = some a := by
  induction l with
  | nil => cases ha
  | cons x xs ih =>
    rw [List.map_cons, List.nodup_cons] at hnd
    rcases List.mem_cons.mp ha with rfl | hmem
    · exact List.find?_cons_of_pos _ hpa
    · have hx : p x = false := by
        cases hpx : p x with
        | false => rfl
        | true =>
          exact absurd ((hkey x hpx) ▸ List.mem_map_of_mem key hmem) hnd.1
      rw [List.find?_cons_of_neg _ (by simp [hx])]
      exact ih hnd.2 hmem

theorem getActiveAccount_eq_some (db : DB) (uid : Nat)
    (hnd : (db.accounts.map (·.id)).Nodup) (a : Account) (ha : a ∈ db.accounts)
    (hu : a.user_id = uid) (hact : a.is_active = true) :
    getActiveAccount db a.id uid = some a := by
  refine find_eq_some_of_key (·.id) _ _ hnd a ha ?_ ?_
  · simp [hu, hact]
  · intro x hx
    simp only [Bool.and_eq_true, beq_iff_eq] at hx
    exact hx.1.1

theorem getAccountById_eq_some (db : DB)
    (hnd : (db.accounts.map (·.id)).Nodup) (a : Account) (ha : a ∈ db.accounts) :
    getAccountById db a.id = some a := by
  refine find_eq_some_of_key (·.id) _ _ hnd a ha ?_ ?_
  · simp
  · intro x hx
    simpa using hx

theorem get_transaction_by_id_eq_some (db : DB) (uid : Nat)
    (hnd : (db.transactions.map (·.id)).Nodup) (t : Transaction)
    (ht : t ∈ db.transactions) (hu : t.user_id = uid) :
    get_transaction_by_id db t.id uid = some t := by
  refine find_eq_some_of_key (·.id) _ _ hnd t ht ?_ ?_
  · simp [hu]
  · intro x hx
    simp only [Bool.and_eq_true, beq_iff_eq] at hx
    exact hx.1

/-- `find?` by key commutes with mapping a key-preserving function. -/
theorem find_map_of_key {α κ : Type} [DecidableEq κ] (key : α → κ) (g : α → α)
    (hg : ∀ a, key (g a) = key a) (l : List α) (k : κ) :
    (l.map g).find? (fun a => key a == k) = (l.find? (fun a => key a == k)).map g := by
  induction l with
  | nil => rfl
  | cons x xs ih =>
    by_cases h : key x = k
    · rw [List.map_cons, List.find?_cons_of_pos _ (by simp [hg, h]),
        List.find?_cons_of_pos _ (by simp [h])]
      rfl
    · rw [List.map_cons, List.find?_cons_of_neg _ (by simp [hg, h]),
        List.find?_cons_of_neg _ (by simp [h]), ih]

theorem getAccountById_updateBalance (db : DB) (target : Nat) (f : Int → Int) (aid : Nat) :
    getAccountById (updateBalance db target f) aid =
      (getAccountById db aid).map
        (fun a => if a.id == target then { a with balance := f a.balance } else a) := by
  unfold getAccountById updateBalance
  exact find_map_of_key (·.id)
    (fun a => if a.id == target then { a with balance := f a.balance } else a)
    (fun a => by by_cases h : a.id = target <;> simp [h]) db.accounts aid

/-- What `updateBalance` does to an observed balance. -/
theorem balanceOf_updateBalance (db : DB) (target : Nat) (f : Int → Int) (aid : Nat) :
    balanceOf (updateBalance db target f) aid =
      if aid = target then (balanceOf db aid).map f else balanceOf db aid := by
  unfold balanceOf
  rw [getAccountById_updateBalance]
  cases hfind : getAccountById db aid with
  | none => by_cases h : aid = target <;> simp [h]
  | some a =>
    have ha : a.id = aid := by simpa using List.find?_some hfind
    by_cases h : aid = target
    · simp [Option.map_map, h, ha.trans h]
    · have h2 : ¬ a.id = target := fun hh => h (ha ▸ hh)
      simp [Option.map_map, h, h2]

/-- `updateBalance` does not change the id column. -/
theorem updateBalance_map_id (db : DB) (target : Nat) (f : Int → Int) :
    ((updateBalance db target f).accounts.map (·.id)) = db.accounts.map (·.id) := by
  unfold updateBalance
  rw [List.map_map]
  refine List.map_congr_left ?_
  intro a _
  by_cases h : a.id = target <;> simp [h]

theorem txnSum_append (l₁ l₂ : List Transaction) (aid : Nat) :
    txnSum (l₁ ++ l₂) aid = txnSum l₁ aid + txnSum l₂ aid := by
  induction l₁ with
  | nil => simp [txnSum]
  | cons t ts ih => simp [txnSum, ih]; ring

/-- A list with distinct ids is unchanged by replacement at an id it does
not contain. -/
theorem map_replace_of_not_mem (l : List Transaction) (tid : Nat) (t' : Transaction)
    (h : ∀ x ∈ l, x.id ≠ tid) :
    l.map (fun x => if x.id == tid then t' else x) = l := by
  induction l with
  | nil => rfl
  | cons x xs ih =>
    rw [List.map_cons, if_neg (by simp [h x (List.mem_cons_self x xs)]),
      ih (fun y hy => h y (List.mem_cons_of_mem x hy))]

theorem txnSum_replace (l : List Transaction) (t t' : Transaction)
    (hnd : (l.map (·.id)).Nodup) (ht : t ∈ l) (aid : Nat) :
    txnSum (l.map (fun x => if x.id == t.id then t' else x)) aid =
      txnSum l aid + (if t'.account_id = aid then t'.amount else 0)
        - (if t.account_id = aid then t.amount else 0) := by
  induction l with
  | nil => cases ht
  | cons x xs ih =>
    rw [List.map_cons, List.nodup_cons] at hnd
    rcases List.mem_cons.mp ht with rfl | hmem
    · rw [List.map_cons, if_pos (by simp),
        map_replace_of_not_mem xs t.id t'
          (fun y hy h => hnd.1 (h ▸ List.mem_map_of_mem (·.id) hy))]
      simp only [txnSum]
      ring
    · have hx : x.id ≠ t.id := by
        intro h
        exact hnd.1 (h ▸ List.mem_map_of_mem (·.id) hmem)
      rw [List.map_cons, if_neg (by simp [hx])]
      simp only [txnSum, ih hnd.2 hmem]
      ring

theorem txnSum_eraseP (l : List Transaction) (t : Transaction)
    (hnd : (l.map (·.id)).Nodup) (ht : t ∈ l) (aid : Nat) :
    txnSum (l.eraseP (fun x => x.id == t.id)) aid =
      txnSum l aid - (if t.account_id = aid then t.amount else 0) := by
  induction l with
  | nil => cases ht
  | cons x xs ih =>
    rw [List.map_cons, List.nodup_cons] at hnd
    rcases List.mem_cons.mp ht with rfl | hmem
    · rw [List.eraseP_cons_of_pos (by simp)]
      simp only [txnSum]
      ring
    · have hx : x.id ≠ t.id := by
        intro h
        exact hnd.1 (h ▸ List.mem_map_of_mem (·.id) hmem)
      rw [List.eraseP_cons_of_neg (by simp [hx])]
      simp only [txnSum, ih hnd.2 hmem]
      ring

theorem validate_transaction_type_ok {v tt : String}
    (h : validate_transaction_type v = .ok tt) : tt = v ∧ v ∈ allowed_types := by
  unfold validate_transaction_type at h
  split at h
  · cases h
    next hmem => exact ⟨rfl, hmem⟩
  · cases h

theorem validate_amount_ok {tt : String} {v amt : Int} (h : validate_amount tt v = .ok amt) :
    amt ≠ 0 ∧ (tt = "income" → 0 < amt) ∧ (tt = "expense" → amt < 0) ∧
    (tt ≠ "income" → tt ≠ "expense" → amt = v) ∧ v ≠ 0 := by
  simp only [validate_amount] at h
  by_cases hv : v = 0
  · rw [if_pos hv] at h
    cases h
  · rw [if_neg hv] at h
    by_cases hexp : tt = "expense" ∧ v > 0
    · rw [if_pos hexp] at h
      have hti : ¬ ((tt = "income") ∧ -(abs v) < 0) := by
        rintro ⟨hti, -⟩
        rw [hexp.1] at hti
        exact absurd hti (by decide)
      rw [if_neg hti] at h
      cases h
      have hpos := hexp.2
      rw [abs_of_pos hpos]
      refine ⟨by omega, fun hti => ?_, fun _ => by omega, fun _ hne => absurd hexp.1 hne, hv⟩
      rw [hti] at hexp
      exact absurd hexp.1 (by decide)
    · rw [if_neg hexp] at h
      by_cases hinc : tt = "income" ∧ v < 0
      · rw [if_pos hinc] at h
        cases h
        have hneg := hinc.2
        rw [abs_of_neg hneg]
        refine ⟨by omega, fun _ => by omega, fun hte => ?_, fun hne _ => absurd hinc.1 hne, hv⟩
        rw [hte] at hinc
        exact absurd hinc.1 (by decide)
      · rw [if_neg hinc] at h
        cases h
        refine ⟨hv, fun hti => ?_, fun hte => ?_, fun _ _ => rfl, hv⟩
        · have : ¬ v < 0 := fun hlt => hinc ⟨hti, hlt⟩
          omega
        · have : ¬ v > 0 := fun hgt => hexp ⟨hte, hgt⟩
          omega

theorem validate_transfer_account_ok {tt : String} {aid : Nat} {v w : Option Nat}
    (h : validate_transfer_account tt aid v = .ok w) :
    w = v ∧ (tt = "transfer" → ∃ b, v = some b ∧ b ≠ aid) ∧
      ((tt = "income" ∨ tt = "expense") → v = none) := by
  unfold validate_transfer_account at h
  split at h
  next htt =>
    rcases v with _ | x
    · cases h
    · by_cases hx : x = aid
      · simp only [if_pos hx] at h
        cases h
      · simp only [if_neg hx] at h
        cases h
        refine ⟨rfl, fun _ => ⟨x, rfl, hx⟩, fun hie => ?_⟩
        rcases hie with hie | hie <;> rw [hie] at htt <;> exact absurd htt (by decide)
  next htt =>
    split at h
    · cases h
    next hcond =>
      cases h
      refine ⟨rfl, fun ht => absurd ht htt, fun hie => ?_⟩
      by_contra hv
      exact hcond ⟨hie, hv⟩

/-- Everything the service layer can rely on about a validated create. -/
theorem validateCreate_ok {r d : TransactionCreate} (h : validateTransactionCreate r = .ok d) :
    d.transaction_type = r.transaction_type ∧ d.account_id = r.account_id ∧
    d.transfer_account_id = r.transfer_account_id ∧ d.description = r.description ∧
    d.category = r.category ∧ d.notes = r.notes ∧ d.reference = r.reference ∧
    d.transaction_date = r.transaction_date ∧ r.transaction_type ∈ allowed_types ∧
    d.amount ≠ 0 ∧
    (r.transaction_type = "income" → 0 < d.amount) ∧
    (r.transaction_type = "expense" → d.amount < 0) ∧
    (r.transaction_type = "transfer" → d.amount = r.amount ∧
      ∃ b, r.transfer_account_id = some b ∧ b ≠ r.account_id) ∧ r.amount ≠ 0 := by
  unfold validateTransactionCreate at h
  cases h1 : validate_transaction_type r.transaction_type with
  | error e => simp only [h1] at h; cases h
  | ok tt =>
    simp only [h1] at h
    obtain ⟨httv, hmem⟩ := validate_transaction_type_ok h1
    cases h2 : validate_amount tt r.amount with
    | error e => simp only [h2] at h; cases h
    | ok amt =>
      simp only [h2] at h
      obtain ⟨hne, hinc, hexp, hother, hvz⟩ := validate_amount_ok h2
      cases h3 : validate_transfer_account tt r.account_id r.transfer_account_id with
      | error e => simp only [h3] at h; cases h
      | ok tacc =>
        simp only [h3] at h
        obtain ⟨htv, htr, hie⟩ := validate_transfer_account_ok h3
        cases h
        subst httv htv
        refine ⟨rfl, rfl, rfl, rfl, rfl, rfl, rfl, rfl, hmem, hne,
          hinc, hexp, fun ht => ⟨?_, htr ht⟩, hvz⟩
        exact hother (by rw [ht]; decide) (by rw [ht]; decide)

/-- Replacement at the id of a member with a record of the same id leaves
the id column unchanged. -/
theorem map_replace_map_id (l : List Transaction) (tid : Nat) (t' : Transaction)
    (hid : t'.id = tid) :
    (l.map (fun x => if x.id == tid then t' else x)).map (·.id) = l.map (·.id) := by
  rw [List.map_map]
  refine List.map_congr_left ?_
  intro x _
  by_cases h : x.id = tid <;> simp [h, hid]

theorem getActiveAccount_some {db : DB} {aid uid : Nat} {a : Account}
    (h : getActiveAccount db aid uid = some a) :
    a ∈ db.accounts ∧ a.id = aid ∧ a.user_id = uid ∧ a.is_active = true := by
  have hm := List.mem_of_find?_eq_some h
  have hp := List.find?_some h
  simp only [Bool.and_eq_true, beq_iff_eq] at hp
  exact ⟨hm, hp.1.1, hp.1.2, hp.2⟩

theorem getActiveAccountOpt_some {db : DB} {v : Option Nat} {uid : Nat} {a : Account}
    (h : getActiveAccountOpt db v uid = some a) :
    ∃ b, v = some b ∧ a ∈ db.accounts ∧ a.id = b ∧ a.user_id = uid ∧ a.is_active = true := by
  cases v with
  | none => cases h
  | some b =>
    obtain ⟨hm, hid, hu, hact⟩ := getActiveAccount_some h
    exact ⟨b, rfl, hm, hid, hu, hact⟩

theorem getAccountById_some {db : DB} {aid : Nat} {a : Account}
    (h : getAccountById db aid = some a) : a ∈ db.accounts ∧ a.id = aid := by
  have hm := List.mem_of_find?_eq_some h
  have hp := List.find?_some h
  simp only [beq_iff_eq] at hp
  exact ⟨hm, hp⟩

theorem get_transaction_by_id_some {db : DB} {tid uid : Nat} {t : Transaction}
    (h : get_transaction_by_id db tid uid = some t) :
    t ∈ db.transactions ∧ t.id = tid ∧ t.user_id = uid := by
  have hm := List.mem_of_find?_eq_some h
  have hp := List.find?_some h
  simp only [Bool.and_eq_true, beq_iff_eq] at hp
  exact ⟨hm, hp.1, hp.2⟩

theorem updateBalance_accounts (db : DB) (aid : Nat) (f : Int → Int) :
    (updateBalance db aid f).accounts =
      db.accounts.map (fun a => if a.id == aid then { a with balance := f a.balance } else a) :=
  rfl

theorem updateBalance_transactions (db : DB) (aid : Nat) (f : Int → Int) :
    (updateBalance db aid f).transactions = db.transactions := rfl

theorem updateBalance_nextTransactionId (db : DB) (aid : Nat) (f : Int → Int) :
    (updateBalance db aid f).nextTransactionId = db.nextTransactionId := rfl

/-! ## Preservation of the balance invariant (claim C1 machinery) -/

theorem create_single_preserves (init : Nat → Int) (db : DB) (d : TransactionCreate)
    (uid : Nat) (hwf : WF db) (hbal : BalancedFrom init db) :
    WF (create_single_transaction db d uid).1 ∧
      BalancedFrom init (create_single_transaction db d uid).1 := by
  obtain ⟨hacc, htx, hlt⟩ := hwf
  constructor
  · refine ⟨?_, ?_, ?_⟩
    · rw [show (create_single_transaction db d uid).1.accounts =
          db.accounts.map (fun a => if a.id == d.account_id then
            { a with balance := a.balance + d.amount } else a) from rfl]
      rw [List.map_map]
      have : ((fun a : Account => a.id) ∘ fun a : Account =>
          if a.id == d.account_id then { a with balance := a.balance + d.amount } else a)
          = fun a : Account => a.id := by
        funext a
        by_cases h : a.id = d.account_id <;> simp [h]
      rw [this]
      exact hacc
    · rw [show (create_single_transaction db d uid).1.transactions =
          db.transactions ++ [single_row db d uid] from rfl]
      rw [List.map_append, List.nodup_append]
      refine ⟨htx, List.nodup_singleton _, ?_⟩
      intro i hi hmem
      rcases List.mem_map.mp hi with ⟨t, ht, rfl⟩
      have hb := hlt t ht
      simp only [List.map_cons, List.map_nil, List.mem_singleton, single_row] at hmem
      omega
    · intro t ht
      rw [show (create_single_transaction db d uid).1.transactions =
          db.transactions ++ [single_row db d uid] from rfl] at ht
      rw [show (create_single_transaction db d uid).1.nextTransactionId =
          db.nextTransactionId + 1 from rfl]
      rcases List.mem_append.mp ht with h | h
      · have := hlt t h
        omega
      · rw [List.mem_singleton.mp h]
        show db.nextTransactionId < db.nextTransactionId + 1
        omega
  · intro a' ha'
    rw [show (create_single_transaction db d uid).1.accounts =
        db.accounts.map (fun a => if a.id == d.account_id then
          { a with balance := a.balance + d.amount } else a) from rfl] at ha'
    rcases List.mem_map.mp ha' with ⟨a, ha, rfl⟩
    have hb := hbal a ha
    rw [show (create_single_transaction db d uid).1.transactions =
        db.transactions ++ [single_row db d uid] from rfl]
    by_cases hid : a.id = d.account_id
    · rw [hid] at hb
      simp only [txnSum_append, txnSum, single_row, hid, if_pos rfl, beq_self_eq_true,
        ite_true, if_true]
      omega
    · simp only [if_neg (by simp [hid] : ¬ (a.id == d.account_id) = true),
        txnSum_append, txnSum, single_row]
      rw [if_neg (fun h => hid h.symm)]
      omega

theorem create_transfer_preserves (init : Nat → Int) (db : DB) (d : TransactionCreate)
    (uid : Nat) (hwf : WF db) (hbal : BalancedFrom init db) :
    WF (create_transfer_transactions db d uid).1 ∧
      BalancedFrom init (create_transfer_transactions db d uid).1 := by
  unfold create_transfer_transactions
  cases hB : getActiveAccountOpt db d.transfer_account_id uid with
  | none => simp only [hB]; exact ⟨hwf, hbal⟩
  | some transfer_account =>
    cases hS : getAccountById db d.account_id with
    | none => simp only [hB, hS]; exact ⟨hwf, hbal⟩
    | some source_account =>
      simp only [hB, hS]
      obtain ⟨b, hv, hmemB, hidB0, -, -⟩ := getActiveAccountOpt_some hB
      obtain ⟨hacc, htx, hlt⟩ := hwf
      constructor
      · refine ⟨?_, ?_, ?_⟩
        · have : ((updateBalance (updateBalance db d.account_id (· - abs d.amount))
              transfer_account.id (· + abs d.amount)).accounts.map (·.id)).Nodup := by
            rw [updateBalance_map_id, updateBalance_map_id]
            exact hacc
          exact this
        · show ((db.transactions ++ [outgoing_row db d uid transfer_account,
            incoming_row db d uid source_account]).map (·.id)).Nodup
          rw [List.map_append, List.nodup_append]
          refine ⟨htx, ?_, ?_⟩
          · show ([(outgoing_row db d uid transfer_account).id,
              (incoming_row db d uid source_account).id] : List Nat).Nodup
            simp [outgoing_row, incoming_row]
          · intro i hi hmem
            rcases List.mem_map.mp hi with ⟨t, ht, rfl⟩
            have hb := hlt t ht
            simp only [List.map_cons, List.map_nil, List.mem_cons, List.mem_singleton,
              List.not_mem_nil, or_false, outgoing_row, incoming_row] at hmem
            rcases hmem with h | h <;> omega
        · intro t ht
          show t.id < db.nextTransactionId + 2
          have ht2 : t ∈ db.transactions ++ [outgoing_row db d uid transfer_account,
            incoming_row db d uid source_account] := ht
          rcases List.mem_append.mp ht2 with h | h
          · have := hlt t h
            omega
          · simp only [List.mem_cons, List.mem_singleton, List.not_mem_nil, or_false] at h
            rcases h with rfl | rfl
            · show (outgoing_row db d uid transfer_account).id < db.nextTransactionId + 2
              simp only [outgoing_row]
              omega
            · show (incoming_row db d uid source_account).id < db.nextTransactionId + 2
              simp only [incoming_row]
              omega
      · intro a' ha'
        have ha2 : a' ∈ (db.accounts.map (fun a => if a.id == d.account_id then
            { a with balance := a.balance - abs d.amount } else a)).map
              (fun a => if a.id == transfer_account.id then
                { a with balance := a.balance + abs d.amount } else a) := ha'
        rw [List.map_map] at ha2
        rcases List.mem_map.mp ha2 with ⟨a, ha, rfl⟩
        have hb := hbal a ha
        show _ = _ + txnSum (db.transactions ++ [outgoing_row db d uid transfer_account,
          incoming_row db d uid source_account]) _
        by_cases hidA : a.id = d.account_id <;> by_cases hidB : a.id = transfer_account.id
        · have hba : b = a.id := (hidB.trans hidB0).symm
          simp only [Function.comp_apply, if_pos (by simp [hidA] : (a.id == d.account_id) = true)]
          simp only [if_pos (by simp [hidB] : (a.id == transfer_account.id) = true)]
          simp only [txnSum_append, txnSum, outgoing_row, incoming_row, hv, Option.getD_some]
          rw [if_pos (hidA.symm), if_pos hba]
          omega
        · have hba : ¬ b = a.id := fun h => hidB (hidB0 ▸ h.symm)
          simp only [Function.comp_apply, if_pos (by simp [hidA] : (a.id == d.account_id) = true)]
          simp only [if_neg (by simp [hidB] : ¬ (a.id == transfer_account.id) = true)]
          simp only [txnSum_append, txnSum, outgoing_row, incoming_row, hv, Option.getD_some]
          rw [if_pos (hidA.symm), if_neg hba]
          omega
        · have hba : b = a.id := (hidB.trans hidB0).symm
          simp only [Function.comp_apply, if_neg (by simp [hidA] : ¬ (a.id == d.account_id) = true)]
          simp only [if_pos (by simp [hidB] : (a.id == transfer_account.id) = true)]
          simp only [txnSum_append, txnSum, outgoing_row, incoming_row, hv, Option.getD_some]
          rw [if_neg (fun h => hidA h.symm), if_pos hba]
          omega
        · have hba : ¬ b = a.id := fun h => hidB (hidB0 ▸ h.symm)
          simp only [Function.comp_apply, if_neg (by simp [hidA] : ¬ (a.id == d.account_id) = true)]
          simp only [if_neg (by simp [hidB] : ¬ (a.id == transfer_account.id) = true)]
          simp only [txnSum_append, txnSum, outgoing_row, incoming_row, hv, Option.getD_some]
          rw [if_neg (fun h => hidA h.symm), if_neg hba]
          omega

theorem create_endpoint_preserves (cat : String → Int → String) (db : DB)
    (r : TransactionCreate) (uid : Nat) (init : Nat → Int)
    (hwf : WF db) (hbal : BalancedFrom init db) :
    WF (create_endpoint cat db r uid).1 ∧ BalancedFrom init (create_endpoint cat db r uid).1 := by
  unfold create_endpoint
  cases hv : validateTransactionCreate r with
  | error e => simp only [hv]; exact ⟨hwf, hbal⟩
  | ok d =>
    simp only [hv]
    unfold create_transaction
    cases hA : getActiveAccount db d.account_id uid with
    | none => simp only [hA]; exact ⟨hwf, hbal⟩
    | some acct =>
      simp only [hA]
      by_cases hc : (categoryFalsy d.category && d.transaction_type != "transfer") = true
      · rw [if_pos hc]
        have hnt : ¬ (({ d with category := some (cat d.description d.amount)
            } : TransactionCreate).transaction_type == "transfer") = true := by
          have := (Bool.and_eq_true _ _).mp hc
          simpa using this.2
        rw [if_neg hnt]
        exact create_single_preserves init db _ uid ⟨hwf.1, hwf.2.1, hwf.2.2⟩ hbal
      · rw [if_neg hc]
        by_cases htr : (d.transaction_type == "transfer") = true
        · rw [if_pos htr]
          exact create_transfer_preserves init db d uid hwf hbal
        · rw [if_neg htr]
          exact create_single_preserves init db d uid hwf hbal

theorem update_transaction_preserves (db : DB) (tid uid : Nat) (u : TransactionUpdate)
    (init : Nat → Int) (hwf : WF db) (hbal : BalancedFrom init db) :
    WF (update_transaction db tid uid u).1 ∧
      BalancedFrom init (update_transaction db tid uid u).1 := by
  unfold update_transaction
  cases hT : get_transaction_by_id db tid uid with
  | none => simp only [hT]; exact ⟨hwf, hbal⟩
  | some t =>
    simp only [hT]
    obtain ⟨htmem, htid, htu⟩ := get_transaction_by_id_some hT
    obtain ⟨hacc, htx, hlt⟩ := hwf
    have hWFrep : WF { db with transactions := db.transactions.map (fun x => if x.id == t.id then applyPatch t u else x) } := by
      refine ⟨hacc, ?_, ?_⟩
      · show ((db.transactions.map (fun x => if x.id == t.id then applyPatch t u else x)).map
          (·.id)).Nodup
        rw [map_replace_map_id db.transactions t.id (applyPatch t u) rfl]
        exact htx
      · intro x hx
        rcases List.mem_map.mp hx with ⟨y, hy, rfl⟩
        by_cases h : y.id = t.id
        · rw [if_pos (by simp [h])]
          show t.id < db.nextTransactionId
          exact hlt t htmem
        · rw [if_neg (by simp [h])]
          exact hlt y hy
    by_cases hamt : u.amount.isSome = true
    · rw [if_pos hamt]
      cases hA : getAccountById { db with transactions := db.transactions.map (fun x => if x.id == t.id then applyPatch t u else x) } (applyPatch t u).account_id with
      | none => simp only [hA]; exact ⟨⟨hacc, htx, hlt⟩, hbal⟩
      | some acct =>
        simp only [hA]
        constructor
        · refine ⟨?_, ?_, ?_⟩
          · rw [updateBalance_map_id]
            exact hWFrep.1
          · rw [updateBalance_transactions]
            exact hWFrep.2.1
          · rw [updateBalance_transactions, updateBalance_nextTransactionId]
            exact hWFrep.2.2
        · intro a' ha'
          rw [updateBalance_accounts] at ha'
          rcases List.mem_map.mp ha' with ⟨a, ha, rfl⟩
          have hb := hbal a ha
          rw [updateBalance_transactions]
          have hsum := txnSum_replace db.transactions t (applyPatch t u) htx htmem
          by_cases hid : a.id = (applyPatch t u).account_id
          · rw [if_pos (by simp [hid])]
            show a.balance + ((applyPatch t u).amount - t.amount) =
              init a.id + txnSum (db.transactions.map
                (fun x => if x.id == t.id then applyPatch t u else x)) a.id
            rw [hsum a.id]
            have hacct : (applyPatch t u).account_id = t.account_id := rfl
            rw [hacct] at hid
            rw [if_pos (show (applyPatch t u).account_id = a.id from hid.symm),
              if_pos (show t.account_id = a.id from hid.symm)]
            omega
          · rw [if_neg (by simp [hid])]
            show a.balance = init a.id + txnSum (db.transactions.map
              (fun x => if x.id == t.id then applyPatch t u else x)) a.id
            rw [hsum a.id]
            have hacct : (applyPatch t u).account_id = t.account_id := rfl
            rw [hacct] at hid
            rw [if_neg (show ¬ (applyPatch t u).account_id = a.id from
                fun h => hid ((hacct ▸ h).symm ▸ rfl)),
              if_neg (show ¬ t.account_id = a.id from fun h => hid h.symm)]
            omega
    · rw [if_neg hamt]
      refine ⟨hWFrep, ?_⟩
      intro a' ha'
      have ha2 : a' ∈ db.accounts := ha'
      have hb := hbal a' ha2
      have hsum := txnSum_replace db.transactions t (applyPatch t u) htx htmem
      show a'.balance = init a'.id + txnSum (db.transactions.map
        (fun x => if x.id == t.id then applyPatch t u else x)) a'.id
      rw [hsum a'.id]
      have hnone : u.amount = none := Option.not_isSome_iff_eq_none.mp (by simpa using hamt)
      have hsame : (applyPatch t u).amount = t.amount := by
        show u.amount.getD t.amount = t.amount
        rw [hnone]
        rfl
      have hacct : (applyPatch t u).account_id = t.account_id := rfl
      rw [hacct, hsame]
      by_cases h : t.account_id = a'.id
      · rw [if_pos h]
        omega
      · rw [if_neg h]
        omega

theorem update_endpoint_preserves (db : DB) (tid uid : Nat) (u : TransactionUpdate)
    (init : Nat → Int) (hwf : WF db) (hbal : BalancedFrom init db) :
    WF (update_endpoint db tid uid u).1 ∧ BalancedFrom init (update_endpoint db tid uid u).1 := by
  unfold update_endpoint
  cases hv : validateTransactionUpdate u with
  | error e => simp only [hv]; exact ⟨hwf, hbal⟩
  | ok u2 =>
    simp only [hv]
    exact update_transaction_preserves db tid uid u2 init hwf hbal

theorem delete_transaction_preserves (db : DB) (tid uid : Nat) (init : Nat → Int)
    (hwf : WF db) (hbal : BalancedFrom init db) :
    WF (delete_transaction db tid uid).1 ∧
      BalancedFrom init (delete_transaction db tid uid).1 := by
  unfold delete_transaction
  cases hT : get_transaction_by_id db tid uid with
  | none => simp only [hT]; exact ⟨hwf, hbal⟩
  | some t =>
    simp only [hT]
    obtain ⟨htmem, htid, htu⟩ := get_transaction_by_id_some hT
    cases hA : getAccountById db t.account_id with
    | none => simp only [hA]; exact ⟨hwf, hbal⟩
    | some acct =>
      simp only [hA]
      obtain ⟨hacc, htx, hlt⟩ := hwf
      constructor
      · refine ⟨?_, ?_, ?_⟩
        · have : ((updateBalance db t.account_id (· - t.amount)).accounts.map (·.id)).Nodup := by
            rw [updateBalance_map_id]
            exact hacc
          exact this
        · show ((db.transactions.eraseP (fun x => x.id == t.id)).map (·.id)).Nodup
          exact ((List.eraseP_sublist db.transactions).map (·.id)).nodup htx
        · intro x hx
          have hx2 : x ∈ db.transactions := List.mem_of_mem_eraseP hx
          show x.id < db.nextTransactionId
          exact hlt x hx2
      · intro a' ha'
        rw [updateBalance_accounts] at ha'
        rcases List.mem_map.mp ha' with ⟨a, ha, rfl⟩
        have hb := hbal a ha
        have hsum := txnSum_eraseP db.transactions t htx htmem
        by_cases hid : a.id = t.account_id
        · rw [if_pos (by simp [hid])]
          show a.balance - t.amount = init a.id +
            txnSum (db.transactions.eraseP (fun x => x.id == t.id)) a.id
          rw [hsum a.id, if_pos hid.symm]
          omega
        · rw [if_neg (by simp [hid])]
          show a.balance = init a.id +
            txnSum (db.transactions.eraseP (fun x => x.id == t.id)) a.id
          rw [hsum a.id, if_neg (fun h => hid h.symm)]
          omega

theorem applyOp_preserves (cat : String → Int → String) (uid : Nat) (init : Nat → Int)
    (db : DB) (op : LedgerOp) (hwf : WF db) (hbal : BalancedFrom init db) :
    WF (applyOp cat uid db op) ∧ BalancedFrom init (applyOp cat uid db op) := by
  cases op with
  | create r => exact create_endpoint_preserves cat db r uid init hwf hbal
  | update tid u => exact update_endpoint_preserves db tid uid u init hwf hbal
  | delete tid => exact delete_transaction_preserves db tid uid init hwf hbal

theorem applyOps_preserves (cat : String → Int → String) (uid : Nat) (init : Nat → Int)
    (db : DB) (ops : List LedgerOp) (hwf : WF db) (hbal : BalancedFrom init db) :
    WF (applyOps cat uid db ops) ∧ BalancedFrom init (applyOps cat uid db ops) := by
  induction ops generalizing db with
  | nil => exact ⟨hwf, hbal⟩
  | cons op ops ih =>
    obtain ⟨hwf2, hbal2⟩ := applyOp_preserves cat uid init db op hwf hbal
    exact ih (applyOp cat uid db op) hwf2 hbal2

/-! ## Claim theorems -/

theorem fallback_mem (d : String) (a : Int) :
    fallback_categorization d a ∈ STANDARD_CATEGORIES := by
  simp only [fallback_categorization]
  split
  · decide
  · split
    · decide
    · split
      · decide
      · split
        · decide
        · decide

/-- C4: the claim says that with the AI capability disabled, `classify` is the
deterministic keyword fallback.  The code disagrees: `categorize_transaction`
returns `"other"` unconditionally when `self.enabled` is false and never
consults `_fallback_categorization` (whose own docstring says it is "Used when
AI fails or is disabled").  At the claim's own test inputs the fallback would
return "transportation" and "income", but the disabled classifier returns
"other". -/
theorem c4_disabled_skips_fallback :
    categorize_transaction false .fail "Shell Gas Station" (-40) = "other" ∧
    fallback_categorization "Shell Gas Station" (-40) = "transportation" ∧
    categorize_transaction false .fail "Paycheck" 3000 = "other" ∧
    fallback_categorization "Paycheck" 3000 = "income" ∧
    categorize_transaction false .fail "Unknown Shop XYZ" (-10) = "other" := by
  decide

/-- C5: for every input and every behavior of the external AI collaborator,
`classify` never raises (it is a total function here) and always returns a
member of the fixed category enumeration; an out-of-enumeration AI result is
coerced to "other" after strip/lower-case normalization, and an AI error
degrades silently to the deterministic fallback. -/
theorem c5_always_valid_category (enabled : Bool) (ai : AIResult)
    (description : String) (amount : Int) (s : String) :
    categorize_transaction enabled ai description amount ∈ STANDARD_CATEGORIES ∧
    (pyLower (pyStrip s) ∉ STANDARD_CATEGORIES →
      categorize_transaction true (.ok s) description amount = "other") ∧
    categorize_transaction true .fail description amount =
      fallback_categorization description amount := by
  refine ⟨?_, ?_, rfl⟩
  · cases enabled with
    | false =>
      have he : categorize_transaction false ai description amount = "other" := rfl
      rw [he]
      decide
    | true =>
      cases ai with
      | fail =>
        simp only [categorize_transaction, Bool.not_true]
        exact fallback_mem description amount
      | ok content =>
        simp only [categorize_transaction, Bool.not_true, Bool.false_eq_true,
          if_false, ite_false]
        by_cases h : pyLower (pyStrip content) ∈ STANDARD_CATEGORIES
        · simp [h]
        · simp only [h, if_false, ite_false]
          decide
  · intro h
    simp [categorize_transaction, h]

/-- C5 witness: the "snacks"-style unknown AI answer is coerced to "other",
which is in the enumeration. -/
theorem c5_witness :
    categorize_transaction true (.ok " Snacks ") "Lunch" (-1) ∈ STANDARD_CATEGORIES ∧
    categorize_transaction true (.ok " Snacks ") "Lunch" (-1) = "other" := by
  have h := c5_always_valid_category true (.ok " Snacks ") "Lunch" (-1) " Snacks "
  exact ⟨h.1, h.2.1 (by decide)⟩

/-- Concrete states used by the C1 theorems. -/
def dbOpening : DB := { accounts := [{ id := 1, user_id := 1, name := "Checking", account_type := "checking", balance := 50000, is_active := true }], transactions := [], nextTransactionId := 1 }

def dbCreation : DB := { accounts := [{ id := 1, user_id := 1, name := "Checking", account_type := "checking", balance := 100000, is_active := true }], transactions := [], nextTransactionId := 1 }

def opSalary : LedgerOp := .create { transaction_type := "income", amount := 5000, description := "Salary", transaction_date := 0, account_id := 1 }

/-- C1 counterexample: an account created with a nonzero opening balance and
an empty operation sequence already violates "balance equals the sum of the
signed amounts of the persisted transactions" — the opening balance is not
represented by any transaction row. -/
theorem c1_counterexample :
    ¬ Balanced (applyOps (fun _ _ => "other") 1 dbOpening []) := by
  simp only [Balanced]
  decide

/-- C1 (amended): starting from any well-formed state whose transaction table
is empty (each account at its creation balance), after any sequence of
create/update/delete operations every account balance equals its creation
balance plus the sum of the signed amounts of the currently-persisted
transactions whose primary account it is. -/
theorem c1_balance_invariant (cat : String → Int → String) (uid : Nat) (db0 : DB)
    (ops : List LedgerOp) (hwf : WF db0) (hempty : db0.transactions = []) :
    ∀ a ∈ (applyOps cat uid db0 ops).accounts,
      a.balance = ((getAccountById db0 a.id).map (·.balance)).getD 0 +
        txnSum (applyOps cat uid db0 ops).transactions a.id := by
  have hbal : BalancedFrom (fun aid => ((getAccountById db0 aid).map (·.balance)).getD 0) db0 := by
    intro a ha
    show a.balance = ((getAccountById db0 a.id).map (·.balance)).getD 0 +
      txnSum db0.transactions a.id
    rw [getAccountById_eq_some db0 hwf.1 a ha, hempty]
    simp [txnSum]
  exact (applyOps_preserves cat uid _ db0 ops hwf hbal).2

/-- C1 witness: one account opened at 1000.00, one income of 50.00 created;
the final balance 1050.00 equals the creation balance plus the transaction
sum. -/
theorem c1_witness :
    ({ id := 1, user_id := 1, name := "Checking", account_type := "checking", balance := 105000, is_active := true } : Account).balance =
      ((getAccountById dbCreation 1).map (·.balance)).getD 0 +
        txnSum (applyOps (fun _ _ => "other") 1 dbCreation [opSalary]).transactions 1 := by
  have h := c1_balance_invariant (fun _ _ => "other") 1 dbCreation [opSalary]
    (by refine ⟨?_, ?_, ?_⟩ <;> decide) rfl
  exact h _ (by decide)

/-- C2: for distinct active accounts A and B owned by the caller and a nonzero
requested amount m, a successful transfer create normalizes m to |m|,
decreases A's balance by |m|, increases B's balance by |m|, persists exactly
the two legs (outgoing on A with amount -|m| and counterparty B, incoming on B
with amount +|m| and counterparty A, both with category "transfer"), returns
the outgoing leg, and touches no other account. -/
theorem c2_transfer (cat : String → Int → String) (db : DB) (uid : Nat) (m td : Int)
    (desc : String) (c notes ref : Option String) (A B : Account)
    (r : TransactionCreate)
    (hr : r =
      { transaction_type := "transfer", amount := m, description := desc,
        category := c, notes := notes, reference := ref, transaction_date := td,
        account_id := A.id, transfer_account_id := some B.id })
    (hwf : WF db) (hA : A ∈ db.accounts) (hB : B ∈ db.accounts)
    (hAu : A.user_id = uid) (hBu : B.user_id = uid)
    (hAact : A.is_active = true) (hBact : B.is_active = true)
    (hAB : A.id ≠ B.id) (hm : m ≠ 0) :
    (create_endpoint cat db r uid).2 = .ok (outgoing_row db r uid B) ∧
    (create_endpoint cat db r uid).1.transactions =
      db.transactions ++ [outgoing_row db r uid B, incoming_row db r uid A] ∧
    (outgoing_row db r uid B).account_id = A.id ∧
    (outgoing_row db r uid B).amount = -(abs m) ∧
    (outgoing_row db r uid B).transfer_account_id = some B.id ∧
    (outgoing_row db r uid B).category = some "transfer" ∧
    (outgoing_row db r uid B).transaction_type = "transfer" ∧
    (incoming_row db r uid A).account_id = B.id ∧
    (incoming_row db r uid A).amount = abs m ∧
    (incoming_row db r uid A).transfer_account_id = some A.id ∧
    (incoming_row db r uid A).category = some "transfer" ∧
    (incoming_row db r uid A).transaction_type = "transfer" ∧
    balanceOf (create_endpoint cat db r uid).1 A.id = some (A.balance - abs m) ∧
    balanceOf (create_endpoint cat db r uid).1 B.id = some (B.balance + abs m) ∧
    (∀ aid, aid ≠ A.id → aid ≠ B.id →
      balanceOf (create_endpoint cat db r uid).1 aid = balanceOf db aid) := by
  subst hr
  have hBA : ¬ B.id = A.id := fun h => hAB h.symm
  have h1 : validate_transaction_type "transfer" = .ok "transfer" := rfl
  have h2 : validate_amount "transfer" m = .ok m := by
    simp only [validate_amount]
    rw [if_neg hm, if_neg (fun hh => absurd hh.1 (by decide)),
      if_neg (fun hh => absurd hh.1 (by decide))]
  have h3 : validate_transfer_account "transfer" A.id (some B.id) = .ok (some B.id) := by
    simp [validate_transfer_account, hBA]
  have hval : validateTransactionCreate
      { transaction_type := "transfer", amount := m, description := desc,
        category := c, notes := notes, reference := ref, transaction_date := td,
        account_id := A.id, transfer_account_id := some B.id } =
      .ok
        { transaction_type := "transfer", amount := m, description := desc,
          category := c, notes := notes, reference := ref, transaction_date := td,
          account_id := A.id, transfer_account_id := some B.id } := by
    simp only [validateTransactionCreate, h1, h2, h3]
  have hgA : getActiveAccount db A.id uid = some A :=
    getActiveAccount_eq_some db uid hwf.1 A hA hAu hAact
  have hgB : getActiveAccountOpt db (some B.id) uid = some B :=
    getActiveAccount_eq_some db uid hwf.1 B hB hBu hBact
  have hgS : getAccountById db A.id = some A := getAccountById_eq_some db hwf.1 A hA
  have hbalA : balanceOf db A.id = some A.balance := by
    unfold balanceOf
    rw [hgS]
    rfl
  have hbalB : balanceOf db B.id = some B.balance := by
    unfold balanceOf
    rw [getAccountById_eq_some db hwf.1 B hB]
    rfl
  unfold create_endpoint
  simp only [hval]
  unfold create_transaction
  simp only [hgA]
  rw [if_neg (by simp : ¬ (categoryFalsy c && (("transfer" : String) != "transfer")) = true)]
  rw [if_pos (by decide : (("transfer" : String) == "transfer") = true)]
  unfold create_transfer_transactions
  simp only [hgB, hgS]
  refine ⟨?_, ?_, ?_, ?_, ?_, ?_, ?_, ?_, ?_, ?_, ?_, ?_, ?_, ?_, ?_⟩
  · trivial
  · trivial
  · trivial
  · trivial
  · trivial
  · trivial
  · trivial
  · trivial
  · trivial
  · trivial
  · trivial
  · trivial
  · show balanceOf (updateBalance (updateBalance db A.id (· - abs m)) B.id (· + abs m)) A.id =
      some (A.balance - abs m)
    rw [balanceOf_updateBalance, if_neg hAB, balanceOf_updateBalance, if_pos rfl, hbalA]
    rfl
  · show balanceOf (updateBalance (updateBalance db A.id (· - abs m)) B.id (· + abs m)) B.id =
      some (B.balance + abs m)
    rw [balanceOf_updateBalance, if_pos rfl, balanceOf_updateBalance, if_neg hBA, hbalB]
    rfl
  · intro aid haidA haidB
    show balanceOf (updateBalance (updateBalance db A.id (· - abs m)) B.id (· + abs m)) aid =
      balanceOf db aid
    rw [balanceOf_updateBalance, if_neg haidB, balanceOf_updateBalance, if_neg haidA]

def acctSign : Account := { id := 1, user_id := 1, name := "Checking", account_type := "checking", balance := 110000, is_active := true }

def tSign : Transaction := { id := 1, user_id := 1, account_id := 1, amount := 10000, description := "d", category := none, transaction_type := "income", notes := none, reference := none, transfer_account_id := none, transaction_date := 0 }

/-- Concrete state used by the C3 theorems: one income transaction of 100.00
on an account with matching balance. -/
def dbSign : DB := { accounts := [acctSign], transactions := [tSign], nextTransactionId := 2 }

/-- C3 counterexample: the update validator does not re-normalize sign.
Starting from a state where the sign convention holds, updating the income
transaction's amount to -50.00 succeeds and persists a negative amount on an
income row, so the convention does not survive updates. -/
theorem c3_counterexample :
    SignOK dbSign ∧
    ((update_endpoint dbSign 1 1 { amount := some (-5000) }).2.toOption.map
      (fun o => o.map (·.amount))) = some (some (-5000)) ∧
    ¬ SignOK (update_endpoint dbSign 1 1 { amount := some (-5000) }).1 := by
  refine ⟨?_, by decide, ?_⟩
  · simp only [SignOK]
    decide
  · simp only [SignOK]
    decide

/-- C3 (amended): the sign convention (income rows positive, expense rows
negative, regardless of the supplied sign) holds immediately after any
successful create and is preserved by create throughout; an update, however,
stores the caller-supplied nonzero amount verbatim with no sign
normalization. -/
theorem c3_sign_normalization (cat : String → Int → String) (db : DB)
    (r : TransactionCreate) (uid tid : Nat) (u : TransactionUpdate) (a : Int)
    (hS : SignOK db) :
    SignOK (create_endpoint cat db r uid).1 ∧
    (u.amount = some a →
      ∀ t', (update_transaction db tid uid u).2 = some t' → t'.amount = a) := by
  constructor
  · unfold create_endpoint
    cases hv : validateTransactionCreate r with
    | error e => simp only [hv]; exact hS
    | ok d =>
      simp only [hv]
      obtain ⟨htt, -, -, -, -, -, -, -, -, -, hinc, hexp, -⟩ := validateCreate_ok hv
      unfold create_transaction
      cases hA : getActiveAccount db d.account_id uid with
      | none => simp only [hA]; exact hS
      | some acct =>
        simp only [hA]
        by_cases hc : (categoryFalsy d.category && d.transaction_type != "transfer") = true
        · rw [if_pos hc]
          have hnt : ¬ (({ d with category := some (cat d.description d.amount)
              } : TransactionCreate).transaction_type == "transfer") = true := by
            have := (Bool.and_eq_true _ _).mp hc
            simpa using this.2
          rw [if_neg hnt]
          intro x hx
          have hx2 : x ∈ db.transactions ++
            [single_row db { d with category := some (cat d.description d.amount) } uid] := hx
          rcases List.mem_append.mp hx2 with h | h
          · exact hS x h
          · rw [List.mem_singleton.mp h]
            exact ⟨fun hti => hinc (htt ▸ hti), fun hte => hexp (htt ▸ hte)⟩
        · rw [if_neg hc]
          by_cases htr : (d.transaction_type == "transfer") = true
          · rw [if_pos htr]
            unfold create_transfer_transactions
            cases hB : getActiveAccountOpt db d.transfer_account_id uid with
            | none => simp only [hB]; exact hS
            | some tacc =>
              cases hSrc : getAccountById db d.account_id with
              | none => simp only [hB, hSrc]; exact hS
              | some src =>
                simp only [hB, hSrc]
                intro x hx
                have hx2 : x ∈ db.transactions ++
                  [outgoing_row db d uid tacc, incoming_row db d uid src] := hx
                rcases List.mem_append.mp hx2 with h | h
                · exact hS x h
                · simp only [List.mem_cons, List.not_mem_nil, or_false] at h
                  rcases h with rfl | rfl
                  · exact ⟨fun hti => by simp [outgoing_row] at hti,
                      fun hte => by simp [outgoing_row] at hte⟩
                  · exact ⟨fun hti => by simp [incoming_row] at hti,
                      fun hte => by simp [incoming_row] at hte⟩
          · rw [if_neg htr]
            intro x hx
            have hx2 : x ∈ db.transactions ++ [single_row db d uid] := hx
            rcases List.mem_append.mp hx2 with h | h
            · exact hS x h
            · rw [List.mem_singleton.mp h]
              exact ⟨fun hti => hinc (htt ▸ hti), fun hte => hexp (htt ▸ hte)⟩
  · intro hua t' ht'
    unfold update_transaction at ht'
    cases hT : get_transaction_by_id db tid uid with
    | none => simp only [hT] at ht'; cases ht'
    | some t =>
      simp only [hT] at ht'
      rw [if_pos (by simp [hua] : u.amount.isSome = true)] at ht'
      cases hA2 : getAccountById { db with transactions := db.transactions.map (fun x => if x.id == t.id then applyPatch t u else x) } (applyPatch t u).account_id with
      | none => rw [hA2] at ht'; cases ht'
      | some acct =>
        rw [hA2] at ht'
        have : applyPatch t u = t' := by
          simpa using ht'
        rw [← this]
        show u.amount.getD t.amount = a
        rw [hua]
        rfl

/-- C3 witness: an expense created with a positive supplied amount is stored
negative (the create-side convention), and a concrete update stores the
caller's negative amount verbatim on an income row. -/
theorem c3_witness :
    SignOK (create_endpoint (fun _ _ => "other") dbSign
      { transaction_type := "expense", amount := 5000, description := "Groceries",
        transaction_date := 0, account_id := 1 } 1).1 ∧
    ({ id := 1, user_id := 1, account_id := 1, amount := -5000, description := "d",
        category := none, transaction_type := "income", notes := none, reference := none,
        transfer_account_id := none, transaction_date := 0 } : Transaction).amount = -5000 := by
  have h := c3_sign_normalization (fun _ _ => "other") dbSign
    { transaction_type := "expense", amount := 5000, description := "Groceries",
      transaction_date := 0, account_id := 1 } 1 1 { amount := some (-5000) } (-5000)
    (by simp only [SignOK]; decide)
  exact ⟨h.1, h.2 rfl _ (by decide)⟩

/-- C6: every failing ledger mutation leaves the persisted state untouched.
Any create whose result is an error returns the input state (this covers
validation failures, a primary account that is absent/not owned/inactive, and
a transfer account that is absent/not owned/inactive); a zero amount always
fails create validation; an update or delete of an absent or not-owned
transaction changes nothing; an update patch with amount zero fails
validation and changes nothing. -/
theorem c6_failures_leave_state (cat : String → Int → String) (db : DB)
    (r : TransactionCreate) (uid tid : Nat) (u : TransactionUpdate) :
    ((create_endpoint cat db r uid).2.isOk = false → (create_endpoint cat db r uid).1 = db) ∧
    (r.amount = 0 → (create_endpoint cat db r uid).1 = db ∧
      (create_endpoint cat db r uid).2.isOk = false) ∧
    (∀ d, validateTransactionCreate r = .ok d →
      getActiveAccount db d.account_id uid = none →
      (create_endpoint cat db r uid).1 = db ∧ (create_endpoint cat db r uid).2.isOk = false) ∧
    (∀ d, validateTransactionCreate r = .ok d → d.transaction_type = "transfer" →
      getActiveAccountOpt db d.transfer_account_id uid = none →
      (create_endpoint cat db r uid).1 = db ∧ (create_endpoint cat db r uid).2.isOk = false) ∧
    (get_transaction_by_id db tid uid = none → (update_endpoint db tid uid u).1 = db) ∧
    (u.amount = some 0 → (update_endpoint db tid uid u).1 = db ∧
      ¬ (update_endpoint db tid uid u).2.isOk = true) ∧
    (get_transaction_by_id db tid uid = none →
      (delete_transaction db tid uid).1 = db ∧ (delete_transaction db tid uid).2 = false) := by
  have hcreate_err : (create_endpoint cat db r uid).2.isOk = false →
      (create_endpoint cat db r uid).1 = db := by
    unfold create_endpoint
    cases hv : validateTransactionCreate r with
    | error e => intro; rfl
    | ok d =>
      simp only
      unfold create_transaction
      cases hA : getActiveAccount db d.account_id uid with
      | none => intro; rfl
      | some acct =>
        simp only
        by_cases hc : (categoryFalsy d.category && d.transaction_type != "transfer") = true
        · rw [if_pos hc]
          have hnt : ¬ (({ d with category := some (cat d.description d.amount)
              } : TransactionCreate).transaction_type == "transfer") = true := by
            have := (Bool.and_eq_true _ _).mp hc
            simpa using this.2
          rw [if_neg hnt]
          intro habs
          cases habs
        · rw [if_neg hc]
          by_cases htr : (d.transaction_type == "transfer") = true
          · rw [if_pos htr]
            unfold create_transfer_transactions
            cases hB : getActiveAccountOpt db d.transfer_account_id uid with
            | none => intro; rfl
            | some tacc =>
              cases hSrc : getAccountById db d.account_id with
              | none => intro; rfl
              | some src =>
                simp only
                intro habs
                cases habs
          · rw [if_neg htr]
            intro habs
            cases habs
  refine ⟨hcreate_err, ?_, ?_, ?_, ?_, ?_, ?_⟩
  · intro hz
    have hfail : (create_endpoint cat db r uid).2.isOk = false := by
      unfold create_endpoint
      cases hv : validateTransactionCreate r with
      | error e => rfl
      | ok d =>
        obtain ⟨-, -, -, -, -, -, -, -, -, -, -, -, -, hnz⟩ := validateCreate_ok hv
        exact absurd hz hnz
    exact ⟨hcreate_err hfail, hfail⟩
  · intro d hv hA
    have hfail : (create_endpoint cat db r uid).2.isOk = false := by
      unfold create_endpoint
      simp only [hv]
      unfold create_transaction
      simp only [hA]
      rfl
    exact ⟨hcreate_err hfail, hfail⟩
  · intro d hv htt hB
    have hfail : (create_endpoint cat db r uid).2.isOk = false := by
      unfold create_endpoint
      simp only [hv]
      unfold create_transaction
      cases hA : getActiveAccount db d.account_id uid with
      | none => simp only [hA]; rfl
      | some acct =>
        simp only [hA]
        have hc : ¬ (categoryFalsy d.category && d.transaction_type != "transfer") = true := by
          simp [htt]
        rw [if_neg hc, if_pos (by simp [htt])]
        unfold create_transfer_transactions
        simp only [hB]
        rfl
    exact ⟨hcreate_err hfail, hfail⟩
  · intro hT
    unfold update_endpoint
    cases hv : validateTransactionUpdate u with
    | error e => rfl
    | ok u2 =>
      simp only
      unfold update_transaction
      have hT2 : get_transaction_by_id db tid uid = none := hT
      rw [hT2]
  · intro hz
    have hv : validateTransactionUpdate u = .error "Amount cannot be zero" := by
      unfold validateTransactionUpdate
      rw [if_pos hz]
    unfold update_endpoint
    rw [hv]
    exact ⟨rfl, by simp [Except.isOk, Except.toBool]⟩
  · intro hT
    unfold delete_transaction
    rw [hT]
    exact ⟨rfl, rfl⟩

def dbDelete : DB := { accounts := [{ id := 1, user_id := 1, name := "Checking", account_type := "checking", balance := 350000, is_active := true }], transactions := [{ id := 1, user_id := 1, account_id := 1, amount := 250000, description := "Salary", category := none, transaction_type := "income", notes := none, reference := none, transfer_account_id := none, transaction_date := 0 }], nextTransactionId := 2 }

def rZeroAmt : TransactionCreate := { transaction_type := "income", amount := 0, description := "x", transaction_date := 0, account_id := 1 }

def rNoAcct : TransactionCreate := { transaction_type := "income", amount := 100, description := "x", transaction_date := 0, account_id := 99 }

def rNoTransferAcct : TransactionCreate := { transaction_type := "transfer", amount := 100, description := "x", transaction_date := 0, account_id := 1, transfer_account_id := some 88 }

/-- C6 witness: the concrete failing mutations — zero amount, missing primary
account, missing transfer account, update/delete of a missing transaction,
zero-amount patch — all leave the concrete state untouched. -/
theorem c6_witness :
    (create_endpoint (fun _ _ => "other") dbSign rZeroAmt 1).1 = dbSign ∧
    (create_endpoint (fun _ _ => "other") dbSign rNoAcct 1).1 = dbSign ∧
    (create_endpoint (fun _ _ => "other") dbSign rNoTransferAcct 1).1 = dbSign ∧
    (update_endpoint dbSign 99 1 { amount := some 100 }).1 = dbSign ∧
    (update_endpoint dbSign 1 1 { amount := some 0 }).1 = dbSign ∧
    (delete_transaction dbSign 99 1).1 = dbSign ∧
    (delete_transaction dbSign 99 1).2 = false := by
  refine ⟨?_, ?_, ?_, ?_, ?_, ?_, ?_⟩
  · exact ((c6_failures_leave_state (fun _ _ => "other") dbSign rZeroAmt 1 99 {}).2.1 rfl).1
  · exact ((c6_failures_leave_state (fun _ _ => "other") dbSign rNoAcct 1 99 {}).2.2.1
      rNoAcct rfl (by decide)).1
  · exact ((c6_failures_leave_state (fun _ _ => "other") dbSign rNoTransferAcct 1 99
      {}).2.2.2.1 rNoTransferAcct rfl rfl (by decide)).1
  · exact (c6_failures_leave_state (fun _ _ => "other") dbSign rNoAcct 1 99
      { amount := some 100 }).2.2.2.2.1 (by decide)
  · exact ((c6_failures_leave_state (fun _ _ => "other") dbSign rNoAcct 1 1
      { amount := some 0 }).2.2.2.2.2.1 rfl).1
  · exact ((c6_failures_leave_state (fun _ _ => "other") dbSign rNoAcct 1 99
      {}).2.2.2.2.2.2 (by decide)).1
  · exact ((c6_failures_leave_state (fun _ _ => "other") dbSign rNoAcct 1 99
      {}).2.2.2.2.2.2 (by decide)).2

/-- C7: updating a persisted owned transaction with a nonzero amount a stores
exactly a on the row, applies the delta a - old_amount to the primary
account's balance once, and changes no other balance; a patch without an
amount leaves the accounts table untouched. -/
theorem c7_update_delta (db : DB) (uid : Nat) (t : Transaction) (u : TransactionUpdate)
    (a : Int) (hwf : WF db) (ht : t ∈ db.transactions) (htu : t.user_id = uid)
    (acct : Account) (hacct : acct ∈ db.accounts) (haid : acct.id = t.account_id) :
    (u.amount = some a → a ≠ 0 →
      (update_endpoint db t.id uid u).2.toOption = some (some (applyPatch t u)) ∧
      (applyPatch t u).amount = a ∧
      balanceOf (update_endpoint db t.id uid u).1 t.account_id =
        some (acct.balance + (a - t.amount)) ∧
      (∀ aid, aid ≠ t.account_id →
        balanceOf (update_endpoint db t.id uid u).1 aid = balanceOf db aid)) ∧
    (u.amount = none → (update_endpoint db t.id uid u).1.accounts = db.accounts) := by
  have hT : get_transaction_by_id db t.id uid = some t :=
    get_transaction_by_id_eq_some db uid hwf.2.1 t ht htu
  constructor
  · intro hua ha0
    have hval : validateTransactionUpdate u = .ok u := by
      unfold validateTransactionUpdate
      rw [if_neg (by simp [hua, ha0])]
    unfold update_endpoint
    simp only [hval]
    unfold update_transaction
    simp only [hT]
    rw [if_pos (by simp [hua] : u.amount.isSome = true)]
    have hAcc : getAccountById { db with transactions := db.transactions.map (fun x => if x.id == t.id then applyPatch t u else x) } (applyPatch t u).account_id = some acct := by
      have h := getAccountById_eq_some { db with transactions := db.transactions.map (fun x => if x.id == t.id then applyPatch t u else x) } hwf.1 acct hacct
      rw [show (applyPatch t u).account_id = t.account_id from rfl, ← haid]
      exact h
    simp only [hAcc]
    refine ⟨rfl, ?_, ?_, ?_⟩
    · show u.amount.getD t.amount = a
      rw [hua]
      rfl
    · show balanceOf (updateBalance { db with transactions := db.transactions.map (fun x => if x.id == t.id then applyPatch t u else x) } (applyPatch t u).account_id (fun x => x + ((applyPatch t u).amount - t.amount))) t.account_id = some (acct.balance + (a - t.amount))
      rw [balanceOf_updateBalance,
        if_pos (show t.account_id = (applyPatch t u).account_id from rfl)]
      have hb : balanceOf { db with transactions := db.transactions.map (fun x => if x.id == t.id then applyPatch t u else x) } t.account_id = some acct.balance := by
        unfold balanceOf
        rw [← haid, getAccountById_eq_some { db with transactions := db.transactions.map (fun x => if x.id == t.id then applyPatch t u else x) } hwf.1 acct hacct]
        rfl
      rw [hb]
      show some (acct.balance + (u.amount.getD t.amount - t.amount)) =
        some (acct.balance + (a - t.amount))
      rw [hua]
      rfl
    · intro aid hne
      show balanceOf (updateBalance { db with transactions := db.transactions.map (fun x => if x.id == t.id then applyPatch t u else x) } (applyPatch t u).account_id (fun x => x + ((applyPatch t u).amount - t.amount))) aid = balanceOf db aid
      rw [balanceOf_updateBalance,
        if_neg (show ¬ aid = (applyPatch t u).account_id from hne)]
      rfl
  · intro hnone
    have hval : validateTransactionUpdate u = .ok u := by
      unfold validateTransactionUpdate
      rw [if_neg (by simp [hnone])]
    unfold update_endpoint
    simp only [hval]
    unfold update_transaction
    simp only [hT]
    rw [if_neg (by simp [hnone] : ¬ u.amount.isSome = true)]

/-- C7 witness: updating the 100.00 transaction to 150.00 on a balance of
1100.00 stores 150.00 and yields balance 1150.00 (delta applied once). -/
theorem c7_witness :
    (update_endpoint dbSign 1 1 { amount := some 15000 }).2.toOption =
      some (some (applyPatch tSign { amount := some 15000 })) ∧
    balanceOf (update_endpoint dbSign 1 1 { amount := some 15000 }).1 1 = some 115000 := by
  have h := (c7_update_delta dbSign 1 tSign { amount := some 15000 } 15000
    (by refine ⟨?_, ?_, ?_⟩ <;> decide) (by decide) rfl
    acctSign (by decide) rfl).1 rfl (by decide)
  exact ⟨h.1, h.2.2.1⟩

/-- C8: deleting a persisted owned transaction succeeds, removes exactly that
row, reverses its amount against its primary account's balance, and changes
no other balance. -/
theorem c8_delete_reversal (db : DB) (uid : Nat) (t : Transaction) (hwf : WF db)
    (ht : t ∈ db.transactions) (htu : t.user_id = uid)
    (acct : Account) (hacct : acct ∈ db.accounts) (haid : acct.id = t.account_id) :
    (delete_transaction db t.id uid).2 = true ∧
    (∃ l₁ l₂, db.transactions = l₁ ++ t :: l₂ ∧
      (delete_transaction db t.id uid).1.transactions = l₁ ++ l₂) ∧
    balanceOf (delete_transaction db t.id uid).1 t.account_id =
      some (acct.balance - t.amount) ∧
    (∀ aid, aid ≠ t.account_id →
      balanceOf (delete_transaction db t.id uid).1 aid = balanceOf db aid) := by
  have hT : get_transaction_by_id db t.id uid = some t :=
    get_transaction_by_id_eq_some db uid hwf.2.1 t ht htu
  have hAcc : getAccountById db t.account_id = some acct := by
    rw [← haid]
    exact getAccountById_eq_some db hwf.1 acct hacct
  unfold delete_transaction
  simp only [hT, hAcc]
  refine ⟨by trivial, ?_, ?_, ?_⟩
  · obtain ⟨x, l₁, l₂, -, hpx, hsplit, herase⟩ :=
      @List.exists_of_eraseP Transaction (fun x => x.id == t.id) db.transactions t ht (by simp)
    have hxmem : x ∈ db.transactions := by
      rw [hsplit]
      exact List.mem_append_right _ (List.mem_cons_self _ _)
    have hx : x = t :=
      List.inj_on_of_nodup_map hwf.2.1 hxmem ht (by simpa using hpx)
    rw [hx] at hsplit
    exact ⟨l₁, l₂, hsplit, herase⟩
  · show balanceOf (updateBalance db t.account_id (fun x => x - t.amount)) t.account_id =
      some (acct.balance - t.amount)
    rw [balanceOf_updateBalance, if_pos rfl]
    unfold balanceOf
    rw [hAcc]
    rfl
  · intro aid hne
    show balanceOf (updateBalance db t.account_id (fun x => x - t.amount)) aid = balanceOf db aid
    rw [balanceOf_updateBalance, if_neg hne]

/-- C8 witness: deleting the +2500.00 income row on a 3500.00 balance yields
1000.00 and removes the row. -/
theorem c8_witness :
    (delete_transaction dbDelete 1 1).2 = true ∧
    balanceOf (delete_transaction dbDelete 1 1).1 1 = some 100000 := by
  have h := c8_delete_reversal dbDelete 1
    { id := 1, user_id := 1, account_id := 1, amount := 250000, description := "Salary",
      category := none, transaction_type := "income", notes := none, reference := none,
      transfer_account_id := none, transaction_date := 0 }
    (by refine ⟨?_, ?_, ?_⟩ <;> decide) (by decide) rfl
    { id := 1, user_id := 1, name := "Checking", account_type := "checking",
      balance := 350000, is_active := true } (by decide) rfl
  exact ⟨h.1, h.2.2.1⟩

def dbNine : DB := { accounts := [], transactions := [{ id := 1, user_id := 1, account_id := 7, amount := 100, description := "x", category := none, transaction_type := "income", notes := none, reference := none, transfer_account_id := none, transaction_date := 0 }], nextTransactionId := 2 }

/-- C9 counterexample: Python truthiness makes an account filter of 0 act as
no filter at all, so the summary counts a transaction on account 7 although
the claim's filtered set (primary account = 0) is empty. -/
theorem c9_counterexample :
    (get_transaction_summary dbNine 1 (some 0) none none).transaction_count = 1 ∧
    (summaryFilter dbNine 1 (some 0) none none).length = 0 := by
  decide

/-- C9 (amended): for every owner, every optional account filter other than 0
(a filter of 0 is treated by the code as absent), and optional inclusive date
bounds, the summary's total_income is the sum of the positive amounts of the
filtered set, total_expenses the absolute value of the sum of the negative
amounts, net_amount their difference, and transaction_count the size of the
filtered set. -/
theorem c9_summary_totals (db : DB) (uid : Nat) (af : Option Nat) (sd ed : Option Int)
    (haf : ∀ x, af = some x → x ≠ 0) :
    get_transaction_summary db uid af sd ed =
      { total_income := (((summaryFilter db uid af sd ed).filter
            (fun t => decide (t.amount > 0))).map (·.amount)).sum,
        total_expenses := abs ((((summaryFilter db uid af sd ed).filter
            (fun t => decide (t.amount < 0))).map (·.amount)).sum),
        net_amount := (((summaryFilter db uid af sd ed).filter
            (fun t => decide (t.amount > 0))).map (·.amount)).sum -
          abs ((((summaryFilter db uid af sd ed).filter
            (fun t => decide (t.amount < 0))).map (·.amount)).sum),
        transaction_count := (summaryFilter db uid af sd ed).length } := by
  have hq : summaryQuery db uid af sd ed = summaryFilter db uid af sd ed := by
    rcases af with _ | aid
    · rcases sd with _ | sv <;> rcases ed with _ | ev <;>
        · simp only [summaryQuery, summaryFilter, List.filter_filter]
          exact List.filter_congr (fun t _ => by
            simp [Bool.and_comm, Bool.and_left_comm, Bool.and_assoc])
    · have haid : aid ≠ 0 := haf aid rfl
      have hbne : (aid != 0) = true := by simpa using haid
      rcases sd with _ | sv <;> rcases ed with _ | ev <;>
        · simp only [summaryQuery, summaryFilter, hbne, if_true, List.filter_filter]
          exact List.filter_congr (fun t _ => by
            simp [Bool.and_comm, Bool.and_left_comm, Bool.and_assoc])
  unfold get_transaction_summary
  rw [hq]

/-- C9 witness: with a genuine account filter the code's count agrees with
the size of the spec's filtered set. -/
theorem c9_witness :
    (get_transaction_summary dbNine 1 (some 7) none none).transaction_count =
      (summaryFilter dbNine 1 (some 7) none none).length := by
  rw [c9_summary_totals dbNine 1 (some 7) none none
    (by intro x hx; cases hx; decide)]

/-- C10: for an existing active owned account, an update patch carrying any
balance value v succeeds, stores exactly v (no bound validation anywhere),
creates no transaction row, and touches no other account. -/
theorem c10_account_balance_set (db : DB) (uid : Nat) (acct : Account) (v : Int)
    (hwf : WF db) (ha : acct ∈ db.accounts) (hu : acct.user_id = uid)
    (hact : acct.is_active = true) :
    (update_account_endpoint db acct.id uid { balance := some v }).2.toOption =
      some (some (applyAccountPatch acct { balance := some v })) ∧
    (applyAccountPatch acct { balance := some v }).balance = v ∧
    (update_account_endpoint db acct.id uid { balance := some v }).1.transactions =
      db.transactions ∧
    balanceOf (update_account_endpoint db acct.id uid { balance := some v }).1 acct.id =
      some v ∧
    (∀ aid, aid ≠ acct.id →
      balanceOf (update_account_endpoint db acct.id uid { balance := some v }).1 aid =
        balanceOf db aid) := by
  have hval : validateAccountUpdate { balance := some v } = .ok { balance := some v } := rfl
  have hg : get_account_by_id db acct.id uid = some acct := by
    refine find_eq_some_of_key (·.id) _ _ hwf.1 acct ha ?_ ?_
    · simp [hu, hact]
    · intro x hx
      simp only [Bool.and_eq_true, beq_iff_eq] at hx
      exact hx.1.1
  have hfm : ∀ aid, getAccountById { db with accounts := db.accounts.map (fun x => if x.id == acct.id then applyAccountPatch acct { balance := some v } else x) } aid = (getAccountById db aid).map (fun x => if x.id == acct.id then applyAccountPatch acct { balance := some v } else x) := by
    intro aid
    exact find_map_of_key (·.id)
      (fun x => if x.id == acct.id then applyAccountPatch acct { balance := some v } else x)
      (fun x => by
        by_cases h : x.id = acct.id <;>
          simp [h, show (applyAccountPatch acct { balance := some v }).id = acct.id from rfl])
      db.accounts aid
  unfold update_account_endpoint
  simp only [hval]
  unfold update_account
  simp only [hg]
  refine ⟨by trivial, by trivial, by trivial, ?_, ?_⟩
  · show balanceOf { db with accounts := db.accounts.map (fun x => if x.id == acct.id then applyAccountPatch acct { balance := some v } else x) } acct.id = some v
    unfold balanceOf
    rw [hfm, getAccountById_eq_some db hwf.1 acct ha]
    simp [applyAccountPatch]
  · intro aid hne
    show balanceOf { db with accounts := db.accounts.map (fun x => if x.id == acct.id then applyAccountPatch acct { balance := some v } else x) } aid = balanceOf db aid
    unfold balanceOf
    rw [hfm]
    cases hfind : getAccountById db aid with
    | none => simp
    | some x =>
      have hx : x.id = aid := by simpa using List.find?_some hfind
      have hxne : ¬ x.id = acct.id := fun h => hne (hx ▸ h)
      simp [hxne]

/-- C10 witness: the balance of the concrete account is set to a value far
above the creation bound of 999,999,999.99 and no transaction row appears. -/
theorem c10_witness :
    balanceOf (update_account_endpoint dbSign 1 1 { balance := some 100000000000000 }).1 1 =
      some 100000000000000 ∧
    (update_account_endpoint dbSign 1 1 { balance := some 100000000000000 }).1.transactions =
      dbSign.transactions := by
  have h := c10_account_balance_set dbSign 1 acctSign 100000000000000
    (by refine ⟨?_, ?_, ?_⟩ <;> decide) (by decide) rfl rfl
  exact ⟨h.2.2.2.1, h.2.2.1⟩

def acctChecking : Account := { id := 1, user_id := 1, name := "Checking", account_type := "checking", balance := 100000, is_active := true }

def acctSavings : Account := { id := 2, user_id := 1, name := "Savings", account_type := "savings", balance := 50000, is_active := true }

def dbPair : DB := { accounts := [acctChecking, acctSavings], transactions := [], nextTransactionId := 1 }

def rPair : TransactionCreate := { transaction_type := "transfer", amount := 20000, description := "Transfer to Savings", transaction_date := 0, account_id := 1, transfer_account_id := some 2 }

/-- C2 witness: transferring 200.00 from a 1000.00 account to a 500.00
account leaves balances 800.00 and 700.00. -/
theorem c2_witness :
    balanceOf (create_endpoint (fun _ _ => "other") dbPair rPair 1).1 acctChecking.id =
      some (acctChecking.balance - abs (20000 : Int)) ∧
    balanceOf (create_endpoint (fun _ _ => "other") dbPair rPair 1).1 acctSavings.id =
      some (acctSavings.balance + abs (20000 : Int)) := by
  have h := c2_transfer (fun _ _ => "other") dbPair 1 20000 0 "Transfer to Savings"
    none none none acctChecking acctSavings rPair rfl
    (by refine ⟨?_, ?_, ?_⟩ <;> decide) (by decide) (by decide) rfl rfl rfl rfl
    (by decide) (by decide)
  exact ⟨h.2.2.2.2.2.2.2.2.2.2.2.2.1, h.2.2.2.2.2.2.2.2.2.2.2.2.2.1⟩

end FinFlow
